import Mathlib

/-!
Shallow embedding of `packages/server/lib/cloud/upload/uploadStream.ts`.

The source drives a streaming PUT upload through `fetch-retry-ts` with
`retries: 2`, a custom `retryOn` callback that both records errors and
decides retry eligibility, and an outer promise that consolidates the
recorded errors (or substitutes the abort signal's reason) on failure.

Time, streams and the network are abstracted: a run is described by the
outcome of each fetch attempt (a network-level rejection carrying an
error value, or a response with a status, a status text and the outcome
of parsing its body as JSON), plus the abort signal's recorded reason,
if any, observed at catch time.
-/

namespace UploadStream

/-- Error values that can flow through the upload call.
`http` mirrors `class HttpError extends Error` (status, statusText, url);
`aggregate` mirrors `AggregateError(errors, message)`; `other` is an
opaque error value (a network-level error, an abort reason, or a value
thrown during enrichment); the last constructor is the JavaScript
undefined value (what `errors[0]` yields on an empty list). -/
inductive Err where
  | http (status : Nat) (statusText : String) (url : String)
  | other (tag : String)
  | aggregate (errors : List Err) (message : String)
  | undefined

/-- The message an error value carries: the `HttpError` constructor
builds it as the status, a colon-space and the status text; an
`AggregateError` carries the message it was built with. -/
def Err.message : Err → String
  | .http status statusText _ => toString status ++ ": " ++ statusText
  | .other tag => tag
  | .aggregate _ message => message
  | .undefined => "undefined"

/-- Outcome of `response.json().catch(() => response.statusText)` inside
the enrichment promise: the body parsed as JSON (rendered as a string),
the parse failed (the `.catch` fallback fires), or the enrichment step
threw a value `e` that the surrounding `try`/`catch` resolves with. -/
inductive JsonOutcome where
  | ok (v : String)
  | fail
  | throws (e : Err)

/-- A fetch response as the `retryOn` callback and the orchestrator see
it: `status`, `statusText`, and the behaviour of `response.json()`. -/
structure Response where
  status : Nat
  statusText : String
  jsonBody : JsonOutcome

/-- The error value the enrichment promise pushed for an HTTP error
response resolves with: the parsed JSON body if
available, else `statusText`, wrapped in `HttpError`; a thrown value is
resolved as-is by the `catch (e) { resolve(e) }` arm. -/
def enrichError (url : String) (r : Response) : Err :=
  match r.jsonBody with
  | .ok v => .http r.status v url
  | .fail => .http r.status r.statusText url
  | .throws e => e

/-- A response whose enrichment does not throw (the realistic case: the
`try` body only awaits a `.catch`-guarded promise). -/
def enrichOk (r : Response) : Prop := ∀ e, r.jsonBody ≠ JsonOutcome.throws e

/-- Mirrors `const retryOnErrorCodes = [408, 429, 502, 503, 504]`. -/
def retryOnErrorCodes : List Nat := [408, 429, 502, 503, 504]

/-- The errors the `retryOn` callback records on one invocation, in push
order: an enriched HTTP error when `response?.status && response?.status
>= 400`, then the network error when `error` is set. -/
def recordedFor (url : String) (error : Option Err) (response : Option Response) :
    List Err :=
  (match response with
    | some r => if r.status ≠ 0 ∧ 400 ≤ r.status then [enrichError url r] else []
    | none => []) ++
  (match error with
    | some e => [e]
    | none => [])

/-- The boolean returned by the `retryOn` callback (lines 100–115):
`isUnderRetryLimit && (isNetworkError || isRetryableHttpError)`, where
`isRetryableHttpError` is `!!response?.status &&
retryOnErrorCodes.includes(response.status)`. -/
def retryOnDecision (attempt retries : Nat) (error : Option Err)
    (response : Option Response) : Bool :=
  let isUnderRetryLimit := decide (attempt < retries)
  let isNetworkError := error.isSome
  let isRetryableHttpError :=
    match response with
    | some r => decide (r.status ≠ 0) && retryOnErrorCodes.contains r.status
    | none => false
  isUnderRetryLimit && (isNetworkError || isRetryableHttpError)

/-- Mirrors `export const geometricRetry = (n) => (n + 1) * 500`. -/
def geometricRetry (n : Nat) : Nat := (n + 1) * 500

/-- Mirrors `const identity = (n: number) => n`. -/
def identity (n : Nat) : Nat := n

/-- Fields of `UploadStreamOptions` that affect control flow:
`retryDelay?` (an optional delay function) and whether an
`activityMonitor` was supplied. -/
structure UploadStreamOptions where
  retryDelay : Option (Nat → Nat)
  hasActivityMonitor : Bool

/-- Mirrors `const retryDelay = options?.retryDelay ?? identity`. -/
def effectiveRetryDelay (options : Option UploadStreamOptions) : Nat → Nat :=
  (Option.bind options (fun o => o.retryDelay)).getD identity

/-- What one fetch attempt does: reject with a network-level error, or
resolve with a response. `fetch-retry-ts` invokes `retryOn(attempt,
retries, error, response)` with exactly one of `error`/`response` set
accordingly. -/
inductive AttemptOutcome where
  | netErr (e : Err)
  | resp (r : Response)

/-- The `error` argument `fetch-retry-ts` passes to `retryOn` for this
outcome. -/
def AttemptOutcome.error : AttemptOutcome → Option Err
  | .netErr e => some e
  | .resp _ => none

/-- The `response` argument `fetch-retry-ts` passes to `retryOn` for
this outcome. -/
def AttemptOutcome.toResponse : AttemptOutcome → Option Response
  | .netErr _ => none
  | .resp r => some r

/-- How the `retryableFetch` promise settles: resolved with the last
response, or rejected with the last network error. -/
inductive FetchResult where
  | resolved (r : Response)
  | rejected (e : Err)

/-- How `fetch-retry-ts` settles its promise when `retryOn` returns
`false`: resolve with the response, or reject with the error. -/
def AttemptOutcome.settle : AttemptOutcome → FetchResult
  | .netErr e => .rejected e
  | .resp r => .resolved r

/-- What the retry loop has produced when it stops: the ordered contents
of `errorPromises` (already resolved), the settled fetch result, and the
total number of fetch calls performed. -/
structure LoopState where
  errors : List Err
  result : FetchResult
  attempts : Nat

theorem retryOnDecision_lt {attempt retries : Nat} {error : Option Err}
    {response : Option Response}
    (h : retryOnDecision attempt retries error response = true) :
    attempt < retries := by
  unfold retryOnDecision at h
  simp only [Bool.and_eq_true, decide_eq_true_eq] at h
  exact h.1

/-- The retry loop of `fetch-retry-ts` with a functional `retryOn`: run
the attempt, let `retryOn` record errors and decide; on `true` retry
with the next attempt index, on `false` settle with this attempt's
outcome. The configured `retries` value is passed through to `retryOn`
but not otherwise enforced by the library. -/
def fetchLoop (url : String) (retries : Nat) (outcomes : Nat → AttemptOutcome)
    (attempt : Nat) (errs : List Err) : LoopState :=
  let o := outcomes attempt
  let errs' := errs ++ recordedFor url o.error o.toResponse
  if h : retryOnDecision attempt retries o.error o.toResponse = true then
    fetchLoop url retries outcomes (attempt + 1) errs'
  else
    { errors := errs'
      result := o.settle
      attempts := attempt + 1 }
termination_by retries - attempt
decreasing_by
  have hlt := retryOnDecision_lt h
  omega

/-- The environment of one upload run: the destination URL, what each
fetch attempt would do, and the abort signal's recorded reason (set when
an activity monitor was supplied and its controller aborted with a
defined reason; the catch arm reads `abortController?.signal.reason`). -/
structure RunEnv where
  url : String
  outcomes : Nat → AttemptOutcome
  abortReason : Option Err

/-- How the promise returned by `uploadStream` settles. -/
inductive UploadResult where
  | success
  | failure (e : Err)

/-- Mirrors the hard-coded `retries: 2` passed to `fetchCreator`. -/
def uploadRetries : Nat := 2

/-- The retry loop as `uploadStream` runs it: attempt index starts at 0
with no errors recorded. -/
def runLoop (env : RunEnv) : LoopState :=
  fetchLoop env.url uploadRetries env.outcomes 0 []

/-- The consolidation the orchestrator performs when the settled
response has status >= 400: await all recorded errors, then reject with
`AggregateError(errors, n + " errors encountered during upload")` when
more than one was recorded, else with `errors[0]`. -/
def consolidate (errors : List Err) : Err :=
  if 1 < errors.length then
    .aggregate errors (toString errors.length ++ " errors encountered during upload")
  else
    errors.headD .undefined

/-- The outer promise of `uploadStream`: if `retryableFetch` resolves,
reject with the consolidated errors when the status is >= 400 and
resolve otherwise; if it rejects with `e`, reject with
`abortController?.signal.reason ?? e`. -/
def uploadStream (env : RunEnv) : UploadResult :=
  let ls := runLoop env
  match ls.result with
  | .resolved r =>
      if 400 ≤ r.status then .failure (consolidate ls.errors)
      else .success
  | .rejected e => .failure ((env.abortReason).getD e)

theorem fetchLoop_stop (url : String) (retries : Nat)
    (outcomes : Nat → AttemptOutcome) (attempt : Nat) (errs : List Err)
    (h : retryOnDecision attempt retries (outcomes attempt).error
      (outcomes attempt).toResponse = false) :
    fetchLoop url retries outcomes attempt errs =
      { errors := errs ++ recordedFor url (outcomes attempt).error
          (outcomes attempt).toResponse
        result := (outcomes attempt).settle
        attempts := attempt + 1 } := by
  rw [fetchLoop]
  simp [h]

theorem fetchLoop_step (url : String) (retries : Nat)
    (outcomes : Nat → AttemptOutcome) (attempt : Nat) (errs : List Err)
    (h : retryOnDecision attempt retries (outcomes attempt).error
      (outcomes attempt).toResponse = true) :
    fetchLoop url retries outcomes attempt errs =
      fetchLoop url retries outcomes (attempt + 1)
        (errs ++ recordedFor url (outcomes attempt).error
          (outcomes attempt).toResponse) := by
  rw [fetchLoop]
  simp [h]

/-- Errors the `retryOn` callback records when invoked for attempt `i`. -/
def recordedAt (url : String) (outcomes : Nat → AttemptOutcome) (i : Nat) : List Err :=
  recordedFor url (outcomes i).error (outcomes i).toResponse

theorem retryOnDecision_false_of_ge {attempt retries : Nat} {error : Option Err}
    {response : Option Response} (h : retries ≤ attempt) :
    retryOnDecision attempt retries error response = false := by
  by_contra hc
  have := retryOnDecision_lt (by simpa using hc)
  omega

theorem fetchLoop_spec (url : String) (retries : Nat)
    (outcomes : Nat → AttemptOutcome) :
    ∀ attempt errs,
      attempt < (fetchLoop url retries outcomes attempt errs).attempts ∧
      ((fetchLoop url retries outcomes attempt errs).attempts ≤ retries + 1 ∨
        (fetchLoop url retries outcomes attempt errs).attempts = attempt + 1) ∧
      (fetchLoop url retries outcomes attempt errs).errors =
        errs ++ (List.range' attempt
          ((fetchLoop url retries outcomes attempt errs).attempts - attempt)).flatMap
            (recordedAt url outcomes) ∧
      (fetchLoop url retries outcomes attempt errs).result =
        (outcomes ((fetchLoop url retries outcomes attempt errs).attempts - 1)).settle ∧
      retryOnDecision ((fetchLoop url retries outcomes attempt errs).attempts - 1) retries
        (outcomes ((fetchLoop url retries outcomes attempt errs).attempts - 1)).error
        (outcomes ((fetchLoop url retries outcomes attempt errs).attempts - 1)).toResponse
          = false ∧
      (∀ i, attempt ≤ i → i + 1 < (fetchLoop url retries outcomes attempt errs).attempts →
        retryOnDecision i retries (outcomes i).error (outcomes i).toResponse = true) := by
  have key : ∀ k attempt errs, retries - attempt ≤ k →
      attempt < (fetchLoop url retries outcomes attempt errs).attempts ∧
      ((fetchLoop url retries outcomes attempt errs).attempts ≤ retries + 1 ∨
        (fetchLoop url retries outcomes attempt errs).attempts = attempt + 1) ∧
      (fetchLoop url retries outcomes attempt errs).errors =
        errs ++ (List.range' attempt
          ((fetchLoop url retries outcomes attempt errs).attempts - attempt)).flatMap
            (recordedAt url outcomes) ∧
      (fetchLoop url retries outcomes attempt errs).result =
        (outcomes ((fetchLoop url retries outcomes attempt errs).attempts - 1)).settle ∧
      retryOnDecision ((fetchLoop url retries outcomes attempt errs).attempts - 1) retries
        (outcomes ((fetchLoop url retries outcomes attempt errs).attempts - 1)).error
        (outcomes ((fetchLoop url retries outcomes attempt errs).attempts - 1)).toResponse
          = false ∧
      (∀ i, attempt ≤ i → i + 1 < (fetchLoop url retries outcomes attempt errs).attempts →
        retryOnDecision i retries (outcomes i).error (outcomes i).toResponse = true) := by
    intro k
    induction k with
    | zero =>
      intro attempt errs hk
      have hd : retryOnDecision attempt retries (outcomes attempt).error
          (outcomes attempt).toResponse = false :=
        retryOnDecision_false_of_ge (by omega)
      rw [fetchLoop_stop url retries outcomes attempt errs hd]
      refine ⟨by simp, by simp, ?_, by simp, by simpa using hd, ?_⟩
      · simp [recordedAt, List.range'_succ]
      · intro i h1 h2
        simp at h2
        omega
    | succ k ih =>
      intro attempt errs hk
      by_cases hd : retryOnDecision attempt retries (outcomes attempt).error
          (outcomes attempt).toResponse = true
      · have hlt := retryOnDecision_lt hd
        rw [fetchLoop_step url retries outcomes attempt errs hd]
        obtain ⟨ih1, ih2, ih3, ih4, ih5, ih6⟩ :=
          ih (attempt + 1) (errs ++ recordedFor url (outcomes attempt).error
            (outcomes attempt).toResponse) (by omega)
        refine ⟨by omega, by omega, ?_, ih4, ih5, ?_⟩
        · rw [ih3]
          have hsub : (fetchLoop url retries outcomes (attempt + 1)
              (errs ++ recordedFor url (outcomes attempt).error
                (outcomes attempt).toResponse)).attempts - attempt =
              ((fetchLoop url retries outcomes (attempt + 1)
                (errs ++ recordedFor url (outcomes attempt).error
                  (outcomes attempt).toResponse)).attempts - (attempt + 1)) + 1 := by
            omega
          rw [hsub, List.range'_succ, List.flatMap_cons, List.append_assoc]
          rfl
        · intro i h1 h2
          rcases Nat.eq_or_lt_of_le h1 with heq | hgt
          · exact heq ▸ hd
          · exact ih6 i hgt h2
      · have hd0 : retryOnDecision attempt retries (outcomes attempt).error
            (outcomes attempt).toResponse = false := by
          simpa using hd
        rw [fetchLoop_stop url retries outcomes attempt errs hd0]
        refine ⟨by simp, by simp, ?_, by simp, by simpa using hd0, ?_⟩
        · simp [recordedAt, List.range'_succ]
        · intro i h1 h2
          simp at h2
          omega
  intro attempt errs
  exact key (retries - attempt) attempt errs le_rfl

/-- Two attempt outcomes that differ at most in the enrichment-relevant
part of a response (the `response.json()` behaviour): same rejection
error, or responses with equal status and status text. -/
def sameShape : AttemptOutcome → AttemptOutcome → Prop
  | .netErr e, .netErr e2 => e = e2
  | .resp r, .resp r2 => r.status = r2.status ∧ r.statusText = r2.statusText
  | _, _ => False

/-- The status of the response a fetch result resolved with, if any. -/
def FetchResult.statusView : FetchResult → Option Nat
  | .resolved r => some r.status
  | .rejected _ => none

theorem sameShape_decision (a retries : Nat) (o o2 : AttemptOutcome)
    (h : sameShape o o2) :
    retryOnDecision a retries o.error o.toResponse =
      retryOnDecision a retries o2.error o2.toResponse := by
  cases o <;> cases o2 <;> simp [sameShape] at h
  · simp [retryOnDecision, AttemptOutcome.error, AttemptOutcome.toResponse]
  · simp [retryOnDecision, AttemptOutcome.error, AttemptOutcome.toResponse, h.1]

theorem sameShape_settle_status (o o2 : AttemptOutcome) (h : sameShape o o2) :
    o.settle.statusView = o2.settle.statusView := by
  cases o <;> cases o2 <;> simp [sameShape] at h
  · simp [AttemptOutcome.settle, FetchResult.statusView]
  · simp [AttemptOutcome.settle, FetchResult.statusView, h.1]

theorem fetchLoop_statusView_congr (url url2 : String) (retries : Nat)
    (o o2 : Nat → AttemptOutcome) (h : ∀ n, sameShape (o n) (o2 n)) :
    ∀ attempt errs errs2,
      (fetchLoop url retries o attempt errs).result.statusView =
        (fetchLoop url2 retries o2 attempt errs2).result.statusView := by
  have key : ∀ k attempt errs errs2, retries - attempt ≤ k →
      (fetchLoop url retries o attempt errs).result.statusView =
        (fetchLoop url2 retries o2 attempt errs2).result.statusView := by
    intro k
    induction k with
    | zero =>
      intro attempt errs errs2 hk
      have hd : retryOnDecision attempt retries (o attempt).error
          (o attempt).toResponse = false :=
        retryOnDecision_false_of_ge (by omega)
      have hd2 : retryOnDecision attempt retries (o2 attempt).error
          (o2 attempt).toResponse = false :=
        (sameShape_decision attempt retries _ _ (h attempt)) ▸ hd
      rw [fetchLoop_stop url retries o attempt errs hd,
        fetchLoop_stop url2 retries o2 attempt errs2 hd2]
      exact sameShape_settle_status _ _ (h attempt)
    | succ k ih =>
      intro attempt errs errs2 hk
      by_cases hd : retryOnDecision attempt retries (o attempt).error
          (o attempt).toResponse = true
      · have hd2 : retryOnDecision attempt retries (o2 attempt).error
            (o2 attempt).toResponse = true :=
          (sameShape_decision attempt retries _ _ (h attempt)) ▸ hd
        have hlt := retryOnDecision_lt hd
        rw [fetchLoop_step url retries o attempt errs hd,
          fetchLoop_step url2 retries o2 attempt errs2 hd2]
        exact ih (attempt + 1) _ _ (by omega)
      · have hd0 : retryOnDecision attempt retries (o attempt).error
            (o attempt).toResponse = false := by simpa using hd
        have hd2 : retryOnDecision attempt retries (o2 attempt).error
            (o2 attempt).toResponse = false :=
          (sameShape_decision attempt retries _ _ (h attempt)) ▸ hd0
        rw [fetchLoop_stop url retries o attempt errs hd0,
          fetchLoop_stop url2 retries o2 attempt errs2 hd2]
        exact sameShape_settle_status _ _ (h attempt)
  intro attempt errs errs2
  exact key (retries - attempt) attempt errs errs2 le_rfl

theorem uploadStream_success_iff_statusView (env : RunEnv) :
    uploadStream env = .success ↔
      ∃ s, (runLoop env).result.statusView = some s ∧ s < 400 := by
  unfold uploadStream
  cases hres : (runLoop env).result with
  | resolved r =>
    simp only [hres]
    by_cases hs : 400 ≤ r.status
    · simp only [if_pos hs, FetchResult.statusView]
      constructor
      · intro h
        exact absurd h (by simp)
      · rintro ⟨s, hs2, hlt⟩
        cases hs2
        omega
    · simp only [if_neg hs, FetchResult.statusView]
      constructor
      · intro _
        exact ⟨r.status, rfl, by omega⟩
      · intro _
        trivial
  | rejected e =>
    simp only [hres, FetchResult.statusView]
    constructor
    · intro h
      exact absurd h (by simp)
    · rintro ⟨s, hs2, hlt⟩
      cases hs2

/-- C1: for every attempt index, error value and response, the `retryOn`
decision is `true` iff the attempt index is strictly below the retry
limit of 2 and (a network-level error is present or the response status
is one of exactly 408, 429, 502, 503, 504); any other status at or above
400 yields no retry even when attempts remain, and at index 2 a 503
response is not retried. -/
theorem claim_C1_retry_decision :
    retryOnErrorCodes = [408, 429, 502, 503, 504] ∧
    (∀ (attempt : Nat) (error : Option Err) (response : Option Response),
      retryOnDecision attempt 2 error response = true ↔
        (attempt < 2 ∧ (error.isSome = true ∨
          ∃ r, response = some r ∧ r.status ∈ retryOnErrorCodes))) ∧
    (∀ r : Response, 400 ≤ r.status → r.status ∉ retryOnErrorCodes →
      ∀ attempt : Nat, retryOnDecision attempt 2 none (some r) = false) ∧
    (∀ r : Response, r.status = 503 → retryOnDecision 2 2 none (some r) = false) := by
  have hmem : ∀ n : Nat, n ∈ retryOnErrorCodes → n ≠ 0 := by
    intro n hn
    simp [retryOnErrorCodes] at hn
    omega
  refine ⟨rfl, ?_, ?_, ?_⟩
  · intro attempt error response
    cases response with
    | none =>
      simp [retryOnDecision]
    | some r =>
      simp only [retryOnDecision, Bool.and_eq_true, Bool.or_eq_true,
        decide_eq_true_eq, List.elem_iff, Option.some.injEq]
      constructor
      · rintro ⟨h1, h2⟩
        refine ⟨h1, ?_⟩
        rcases h2 with h2 | ⟨h3, h4⟩
        · exact Or.inl h2
        · exact Or.inr ⟨r, rfl, h4⟩
      · rintro ⟨h1, h2⟩
        refine ⟨h1, ?_⟩
        rcases h2 with h2 | ⟨r2, hr2, h4⟩
        · exact Or.inl h2
        · cases hr2
          exact Or.inr ⟨hmem _ h4, h4⟩
  · intro r hge hnot attempt
    simp only [retryOnDecision, Option.isSome_none, Bool.false_or,
      Bool.and_eq_false_iff]
    right
    simp [List.elem_iff, hnot]
  · intro r h503
    simp [retryOnDecision]

/-- Witness for C1 at concrete inputs: a 404 response is not retried at
attempt 0, and a 503 response is not retried at attempt 2. -/
theorem claim_C1_retry_decision_witness :
    retryOnDecision 0 2 none (some ⟨404, "Not Found", .fail⟩) = false ∧
    retryOnDecision 2 2 none (some ⟨503, "Service Unavailable", .fail⟩) = false :=
  ⟨claim_C1_retry_decision.2.2.1 ⟨404, "Not Found", .fail⟩ (by decide) (by decide) 0,
    claim_C1_retry_decision.2.2.2 ⟨503, "Service Unavailable", .fail⟩ rfl⟩

/-- C8: the production delay function satisfies
`delay(n) = (n + 1) * 500` for every `n`; at indices 0, 1, 2 it yields
500, 1000 and 1500 milliseconds. -/
theorem claim_C8_geometric_delay :
    (∀ n : Nat, geometricRetry n = (n + 1) * 500) ∧
    geometricRetry 0 = 500 ∧ geometricRetry 1 = 1000 ∧ geometricRetry 2 = 1500 :=
  ⟨fun _ => rfl, rfl, rfl, rfl⟩

/-- C9: when the options omit `retryDelay` (or no options are passed),
the delay function used is the identity on the attempt index, which is
not the geometric function; the geometric function must be supplied
explicitly by the caller. -/
theorem claim_C9_default_delay_identity :
    effectiveRetryDelay none = identity ∧
    (∀ opts : UploadStreamOptions, opts.retryDelay = none →
      effectiveRetryDelay (some opts) = identity) ∧
    effectiveRetryDelay none ≠ geometricRetry := by
  refine ⟨rfl, ?_, ?_⟩
  · intro opts h
    simp [effectiveRetryDelay, h]
  · intro h
    have h0 := congrFun h 0
    simp [effectiveRetryDelay, identity, geometricRetry] at h0

/-- Witness for C9: options with no `retryDelay` resolve to the identity
delay function. -/
theorem claim_C9_default_delay_identity_witness :
    effectiveRetryDelay (some ⟨none, false⟩) = identity :=
  claim_C9_default_delay_identity.2.1 ⟨none, false⟩ rfl

/-- C10: the error recorded for an HTTP error response always resolves
to a definite error value: a body that parses as JSON becomes the
message, a failed parse falls back to the response status text, and a
value thrown during enrichment is itself the resolved error — so
awaiting the recorded errors at consolidation time cannot throw. -/
theorem claim_C10_enrichment_total :
    ∀ (url : String) (r : Response),
      (∀ v, r.jsonBody = .ok v → enrichError url r = .http r.status v url) ∧
      (r.jsonBody = .fail → enrichError url r = .http r.status r.statusText url) ∧
      (∀ e, r.jsonBody = .throws e → enrichError url r = e) := by
  intro url r
  refine ⟨?_, ?_, ?_⟩
  · intro v hv
    simp [enrichError, hv]
  · intro hv
    simp [enrichError, hv]
  · intro e hv
    simp [enrichError, hv]

/-- Witness for C10 at a concrete response whose body parses as JSON. -/
theorem claim_C10_enrichment_total_witness :
    enrichError "u" ⟨500, "Internal Server Error", .ok "broken"⟩ =
      .http 500 "broken" "u" :=
  (claim_C10_enrichment_total "u" ⟨500, "Internal Server Error", .ok "broken"⟩).1
    "broken" rfl

theorem enrichError_of_ok (url : String) (r : Response) (hok : enrichOk r) :
    ∃ st, enrichError url r = .http r.status st url := by
  cases hj : r.jsonBody with
  | ok v => exact ⟨v, by simp [enrichError, hj]⟩
  | fail => exact ⟨r.statusText, by simp [enrichError, hj]⟩
  | throws e => exact absurd hj (hok e)

/-- C7: when the first attempt returns a non-retryable error status
(and hence every attempt does, since no retry happens), the call
performs exactly one attempt, the policy denies the retry, and the call
rejects with that single HTTP error, not wrapped in a composite. -/
theorem claim_C7_non_retryable_single_attempt (env : RunEnv) (r : Response)
    (h0 : env.outcomes 0 = .resp r) (hge : 400 ≤ r.status)
    (hnr : r.status ∉ retryOnErrorCodes) (hok : enrichOk r) :
    (runLoop env).attempts = 1 ∧
    retryOnDecision 0 uploadRetries (env.outcomes 0).error
      (env.outcomes 0).toResponse = false ∧
    uploadStream env = .failure (enrichError env.url r) ∧
    (∃ st, enrichError env.url r = .http r.status st env.url) ∧
    (∀ l m, enrichError env.url r ≠ .aggregate l m) := by
  have hne : r.status ≠ 0 := by omega
  have hd : retryOnDecision 0 uploadRetries (env.outcomes 0).error
      (env.outcomes 0).toResponse = false := by
    rw [h0]
    simp only [retryOnDecision, AttemptOutcome.error, AttemptOutcome.toResponse,
      Option.isSome_none, Bool.false_or]
    simp [List.elem_iff, hnr]
  have hloop : runLoop env =
      { errors := [enrichError env.url r], result := .resolved r, attempts := 1 } := by
    unfold runLoop
    rw [fetchLoop_stop env.url uploadRetries env.outcomes 0 [] hd, h0]
    simp [recordedFor, AttemptOutcome.error, AttemptOutcome.toResponse,
      AttemptOutcome.settle, hne, hge]
  obtain ⟨st, hst⟩ := enrichError_of_ok env.url r hok
  refine ⟨by rw [hloop], hd, ?_, ⟨st, hst⟩, ?_⟩
  · unfold uploadStream
    rw [hloop]
    simp [hge, consolidate]
  · intro l m
    rw [hst]
    intro hcontra
    cases hcontra

/-- Witness for C7: a single 404 response fails after one attempt with
the single HTTP error. -/
theorem claim_C7_non_retryable_single_attempt_witness :
    (runLoop (RunEnv.mk "u" (fun _ => .resp ⟨404, "Not Found", .fail⟩) none)).attempts
        = 1 ∧
    uploadStream (RunEnv.mk "u" (fun _ => .resp ⟨404, "Not Found", .fail⟩) none) =
      .failure (.http 404 "Not Found" "u") := by
  have h := claim_C7_non_retryable_single_attempt
    (RunEnv.mk "u" (fun _ => .resp ⟨404, "Not Found", .fail⟩) none)
    ⟨404, "Not Found", .fail⟩ rfl (by decide) (by decide)
    (fun e => by simp)
  exact ⟨h.1, h.2.2.1⟩

/-- Environment in which every attempt yields the given three responses
in order (the third response also answers any later attempt). -/
def threeRespEnv (url : String) (reason : Option Err) (r0 r1 r2 : Response) :
    RunEnv :=
  ⟨url, fun n => if n = 0 then .resp r0 else if n = 1 then .resp r1 else .resp r2,
    reason⟩

/-- C6: three consecutive 503 responses exhaust the budget of
`maxRetries = 2`: exactly 3 attempts are performed and the call rejects
with a composite of 3 HTTP errors, each of status 503, in attempt
order. -/
theorem claim_C6_three_503 (url : String) (reason : Option Err) (r0 r1 r2 : Response)
    (h0 : r0.status = 503) (h1 : r1.status = 503) (h2 : r2.status = 503)
    (k0 : enrichOk r0) (k1 : enrichOk r1) (k2 : enrichOk r2) :
    (runLoop (threeRespEnv url reason r0 r1 r2)).attempts = 3 ∧
    ∃ s0 s1 s2, uploadStream (threeRespEnv url reason r0 r1 r2) =
      .failure (.aggregate
        [.http 503 s0 url, .http 503 s1 url, .http 503 s2 url]
        "3 errors encountered during upload") := by
  have hd0 : retryOnDecision 0 uploadRetries
      ((threeRespEnv url reason r0 r1 r2).outcomes 0).error
      ((threeRespEnv url reason r0 r1 r2).outcomes 0).toResponse = true := by
    simp [threeRespEnv, retryOnDecision, AttemptOutcome.error,
      AttemptOutcome.toResponse, retryOnErrorCodes, uploadRetries, h0]
  have hd1 : retryOnDecision 1 uploadRetries
      ((threeRespEnv url reason r0 r1 r2).outcomes 1).error
      ((threeRespEnv url reason r0 r1 r2).outcomes 1).toResponse = true := by
    simp [threeRespEnv, retryOnDecision, AttemptOutcome.error,
      AttemptOutcome.toResponse, retryOnErrorCodes, uploadRetries, h1]
  have hd2 : retryOnDecision 2 uploadRetries
      ((threeRespEnv url reason r0 r1 r2).outcomes 2).error
      ((threeRespEnv url reason r0 r1 r2).outcomes 2).toResponse = false :=
    retryOnDecision_false_of_ge (by simp [uploadRetries])
  have hloop : runLoop (threeRespEnv url reason r0 r1 r2) =
      { errors := [enrichError url r0, enrichError url r1, enrichError url r2]
        result := .resolved r2
        attempts := 3 } := by
    unfold runLoop
    rw [fetchLoop_step _ _ _ 0 _ hd0, fetchLoop_step _ _ _ 1 _ hd1,
      fetchLoop_stop _ _ _ 2 _ hd2]
    simp [threeRespEnv, recordedFor, AttemptOutcome.error, AttemptOutcome.toResponse,
      AttemptOutcome.settle, h0, h1, h2]
  obtain ⟨s0, hs0⟩ := enrichError_of_ok url r0 k0
  obtain ⟨s1, hs1⟩ := enrichError_of_ok url r1 k1
  obtain ⟨s2, hs2⟩ := enrichError_of_ok url r2 k2
  refine ⟨by rw [hloop], s0, s1, s2, ?_⟩
  unfold uploadStream
  rw [hloop]
  have hge : (400 : Nat) ≤ r2.status := by omega
  simp only [hge, if_pos]
  rw [consolidate]
  simp only [List.length_cons, List.length_nil]
  rw [if_pos (by omega)]
  rw [hs0, hs1, hs2, h0, h1, h2]
  rfl

/-- Witness for C6: three concrete 503 responses produce the expected
3-attempt composite failure. -/
theorem claim_C6_three_503_witness :
    (runLoop (threeRespEnv "u" none ⟨503, "Service Unavailable", .fail⟩
      ⟨503, "Service Unavailable", .fail⟩ ⟨503, "Service Unavailable", .fail⟩)).attempts
        = 3 ∧
    ∃ s0 s1 s2, uploadStream (threeRespEnv "u" none
        ⟨503, "Service Unavailable", .fail⟩ ⟨503, "Service Unavailable", .fail⟩
        ⟨503, "Service Unavailable", .fail⟩) =
      .failure (.aggregate
        [.http 503 s0 "u", .http 503 s1 "u", .http 503 s2 "u"]
        "3 errors encountered during upload") :=
  claim_C6_three_503 "u" none _ _ _ rfl rfl rfl
    (fun e => by simp) (fun e => by simp) (fun e => by simp)

/-- C2: when the run terminates with an HTTP error response, the
recorded errors are exactly the per-attempt recordings in attempt
order; with exactly one recorded error the call rejects with it
directly (not wrapped), and with more than one it rejects with an
`AggregateError` over that ordered list whose message states the
count. -/
theorem claim_C2_error_consolidation (env : RunEnv) (r : Response)
    (hres : (runLoop env).result = .resolved r) (hge : 400 ≤ r.status) :
    (runLoop env).errors =
      (List.range' 0 (runLoop env).attempts).flatMap
        (recordedAt env.url env.outcomes) ∧
    (∀ e, (runLoop env).errors = [e] → uploadStream env = .failure e) ∧
    (1 < (runLoop env).errors.length →
      uploadStream env = .failure (.aggregate (runLoop env).errors
        (toString (runLoop env).errors.length ++
          " errors encountered during upload"))) := by
  obtain ⟨hlt, _, herrs, _, _, _⟩ :=
    fetchLoop_spec env.url uploadRetries env.outcomes 0 []
  refine ⟨by simpa using herrs, ?_, ?_⟩
  · intro e he
    unfold uploadStream
    simp only [hres, if_pos hge]
    rw [he]
    simp [consolidate]
  · intro hlen
    unfold uploadStream
    simp only [hres, if_pos hge]
    rw [consolidate, if_pos hlen]

/-- Witness for C2: a single 400 response rejects with that HTTP error
directly. -/
theorem claim_C2_error_consolidation_witness :
    uploadStream (RunEnv.mk "u" (fun _ => .resp ⟨400, "Bad Request", .fail⟩) none) =
      .failure (.http 400 "Bad Request" "u") := by
  have hres : (runLoop (RunEnv.mk "u"
      (fun _ => .resp ⟨400, "Bad Request", .fail⟩) none)).result =
      .resolved ⟨400, "Bad Request", .fail⟩ := by
    simp [runLoop, fetchLoop, retryOnDecision, retryOnErrorCodes, uploadRetries,
      recordedFor, AttemptOutcome.error, AttemptOutcome.toResponse,
      AttemptOutcome.settle]
  have h := claim_C2_error_consolidation
    (RunEnv.mk "u" (fun _ => .resp ⟨400, "Bad Request", .fail⟩) none)
    ⟨400, "Bad Request", .fail⟩ hres (by decide)
  refine h.2.1 (.http 400 "Bad Request" "u") ?_
  simp [runLoop, fetchLoop, retryOnDecision, retryOnErrorCodes, uploadRetries,
    recordedFor, enrichError, AttemptOutcome.error, AttemptOutcome.toResponse,
    AttemptOutcome.settle]

/-- C4: the call resolves successfully iff the final attempt resolved
with a status below 400 and no cancellation occurred (cancellation
mid-attempt makes the transport chain reject, which is the stated
environment hypothesis); and success is unaffected by the enrichment
outcomes of earlier failed attempts — those recorded promises are
discarded and never surface. -/
theorem claim_C4_success_iff (env : RunEnv)
    (hc : env.abortReason.isSome = true → ∃ e, (runLoop env).result = .rejected e) :
    (uploadStream env = .success ↔
      (env.abortReason = none ∧
        ∃ r, (runLoop env).result = .resolved r ∧ r.status < 400)) ∧
    (∀ env2 : RunEnv, (∀ n, sameShape (env.outcomes n) (env2.outcomes n)) →
      uploadStream env = .success → uploadStream env2 = .success) := by
  constructor
  · constructor
    · intro h
      rw [uploadStream_success_iff_statusView] at h
      obtain ⟨s, hsv, hlt⟩ := h
      cases hres : (runLoop env).result with
      | resolved r =>
        rw [hres] at hsv
        simp only [FetchResult.statusView, Option.some.injEq] at hsv
        refine ⟨?_, r, rfl, by omega⟩
        cases ha : env.abortReason with
        | none => rfl
        | some a =>
          obtain ⟨e, he⟩ := hc (by simp [ha])
          rw [he] at hres
          cases hres
      | rejected e =>
        rw [hres] at hsv
        simp [FetchResult.statusView] at hsv
    · rintro ⟨ha, r, hres, hlt⟩
      rw [uploadStream_success_iff_statusView]
      exact ⟨r.status, by simp [hres, FetchResult.statusView], hlt⟩
  · intro env2 hsh hsucc
    rw [uploadStream_success_iff_statusView] at hsucc ⊢
    have hcongr := fetchLoop_statusView_congr env.url env2.url uploadRetries
      env.outcomes env2.outcomes hsh 0 [] []
    unfold runLoop at hsucc ⊢
    rw [← hcongr]
    exact hsucc

/-- Witness for C4: a first-attempt 200 response succeeds. -/
theorem claim_C4_success_iff_witness :
    uploadStream (RunEnv.mk "u" (fun _ => .resp ⟨200, "OK", .fail⟩) none) =
      .success := by
  have h := claim_C4_success_iff
    (RunEnv.mk "u" (fun _ => .resp ⟨200, "OK", .fail⟩) none) (by simp)
  refine h.1.mpr ⟨rfl, ⟨200, "OK", .fail⟩, ?_, by decide⟩
  simp [runLoop, fetchLoop, retryOnDecision, retryOnErrorCodes, uploadRetries,
    recordedFor, AttemptOutcome.error, AttemptOutcome.toResponse,
    AttemptOutcome.settle]

/-- Environment of a run whose abort signal fired before the first
attempt completed: every fetch call rejects with the abort error, and
the signal's recorded reason is a stall-timeout error. -/
def abortedEnv : RunEnv :=
  ⟨"u", fun _ => .netErr (.other "AbortError"), some (.other "stall timeout")⟩

/-- C3 counterexample: with the abort signal fired (reason recorded)
and every fetch call rejecting with the abort error, the `retryOn`
policy still grants a retry at attempt 0 — an abort-induced rejection
counts as a network error — so the run performs 3 fetch attempts, not
1, before rejecting with the recorded reason. The claim's "no further
retries occur" is false. -/
theorem claim_C3_counterexample :
    retryOnDecision 0 uploadRetries
      (AttemptOutcome.netErr (.other "AbortError")).error
      (AttemptOutcome.netErr (.other "AbortError")).toResponse = true ∧
    (runLoop abortedEnv).attempts = 3 ∧
    uploadStream abortedEnv = .failure (.other "stall timeout") := by
  refine ⟨by simp [retryOnDecision, AttemptOutcome.error,
    AttemptOutcome.toResponse, uploadRetries], ?_, ?_⟩
  · simp [runLoop, abortedEnv, fetchLoop, retryOnDecision, uploadRetries,
      recordedFor, AttemptOutcome.error, AttemptOutcome.toResponse,
      AttemptOutcome.settle]
  · simp [uploadStream, runLoop, abortedEnv, fetchLoop, retryOnDecision,
      uploadRetries, recordedFor, AttemptOutcome.error, AttemptOutcome.toResponse,
      AttemptOutcome.settle]

/-- C3 as amended: when the abort signal has a recorded reason `R` and
the transport chain ends in a rejection, the call rejects with exactly
`R` — the reason supersedes the transport error and no consolidation of
the recorded errors happens — but the retry policy still treats each
abort-induced rejection as a retryable network error, so retries (each
failing immediately) are still attempted while the budget lasts. -/
theorem claim_C3_cancellation_reason (env : RunEnv) (R : Err)
    (hR : env.abortReason = some R) (e : Err)
    (hrej : (runLoop env).result = .rejected e) :
    uploadStream env = .failure R ∧
    (∀ err : Err, retryOnDecision 0 uploadRetries
      (AttemptOutcome.netErr err).error
      (AttemptOutcome.netErr err).toResponse = true) := by
  constructor
  · unfold uploadStream
    simp only [hrej, hR, Option.getD_some]
  · intro err
    simp [retryOnDecision, AttemptOutcome.error, AttemptOutcome.toResponse,
      uploadRetries]

/-- Witness for the amended C3 at the aborted-run environment. -/
theorem claim_C3_cancellation_reason_witness :
    uploadStream abortedEnv = .failure (.other "stall timeout") := by
  have hrej : (runLoop abortedEnv).result = .rejected (.other "AbortError") := by
    simp [runLoop, abortedEnv, fetchLoop, retryOnDecision, uploadRetries,
      recordedFor, AttemptOutcome.error, AttemptOutcome.toResponse,
      AttemptOutcome.settle]
  exact (claim_C3_cancellation_reason abortedEnv (.other "stall timeout") rfl
    (.other "AbortError") hrej).1

/-- Environment of a run that records a 503 HTTP error on attempt 0 and
then hits two network-level errors, the second of which ends the
budget. -/
def mixedFinalNetEnv : RunEnv :=
  ⟨"u", fun n =>
    if n = 0 then .resp ⟨503, "Service Unavailable", .fail⟩
    else if n = 1 then .netErr (.other "ECONNRESET A")
    else .netErr (.other "ECONNRESET B"), none⟩

/-- C5 counterexample: a run that exhausts the budget with a
network-level final failure records three errors across its attempts,
yet the caller receives only the final network error — not a composite
carrying the full failure history — so the earlier recorded errors are
lost. -/
theorem claim_C5_counterexample :
    (runLoop mixedFinalNetEnv).attempts = 3 ∧
    (runLoop mixedFinalNetEnv).errors =
      [.http 503 "Service Unavailable" "u", .other "ECONNRESET A",
        .other "ECONNRESET B"] ∧
    uploadStream mixedFinalNetEnv = .failure (.other "ECONNRESET B") ∧
    (∀ l m, UploadResult.failure (Err.other "ECONNRESET B") ≠
      .failure (.aggregate l m)) := by
  refine ⟨?_, ?_, ?_, ?_⟩
  · simp [runLoop, mixedFinalNetEnv, fetchLoop, retryOnDecision, uploadRetries,
      recordedFor, AttemptOutcome.error, AttemptOutcome.toResponse,
      AttemptOutcome.settle, retryOnErrorCodes]
  · simp [runLoop, mixedFinalNetEnv, fetchLoop, retryOnDecision, uploadRetries,
      recordedFor, enrichError, AttemptOutcome.error, AttemptOutcome.toResponse,
      AttemptOutcome.settle, retryOnErrorCodes]
  · simp [uploadStream, runLoop, mixedFinalNetEnv, fetchLoop, retryOnDecision,
      uploadRetries, recordedFor, AttemptOutcome.error, AttemptOutcome.toResponse,
      AttemptOutcome.settle, retryOnErrorCodes]
  · intro l m hcontra
    simp at hcontra

/-- C5 as amended: once the budget is exhausted the caller receives
exactly one error object; when the final attempt resolved with an HTTP
error response this is the consolidation of all recorded errors (the
single error unwrapped, or an `AggregateError` over the ordered list
with a count message), with every enrichment awaited; when the final
attempt rejected at network level it is just the final rejection (or
the abort reason), and earlier recorded errors are not included. -/
theorem claim_C5_budget_exhaustion (env : RunEnv) :
    (∀ r, (runLoop env).result = .resolved r → 400 ≤ r.status →
      uploadStream env = .failure (consolidate (runLoop env).errors)) ∧
    (∀ e, (runLoop env).result = .rejected e →
      uploadStream env = .failure (env.abortReason.getD e)) ∧
    (∀ errs : List Err, 1 < errs.length →
      consolidate errs = .aggregate errs
        (toString errs.length ++ " errors encountered during upload")) ∧
    (∀ e : Err, consolidate [e] = e) := by
  refine ⟨?_, ?_, ?_, ?_⟩
  · intro r hres hge
    unfold uploadStream
    simp only [hres, if_pos hge]
  · intro e hrej
    unfold uploadStream
    simp only [hrej]
  · intro errs hlen
    rw [consolidate, if_pos hlen]
  · intro e
    simp [consolidate]

/-- Witness for the amended C5 at the mixed-failure environment: the
rejected branch produces the final network error. -/
theorem claim_C5_budget_exhaustion_witness :
    uploadStream mixedFinalNetEnv = .failure (.other "ECONNRESET B") := by
  have hrej : (runLoop mixedFinalNetEnv).result =
      .rejected (.other "ECONNRESET B") := by
    simp [runLoop, mixedFinalNetEnv, fetchLoop, retryOnDecision, uploadRetries,
      recordedFor, AttemptOutcome.error, AttemptOutcome.toResponse,
      AttemptOutcome.settle, retryOnErrorCodes]
  exact (claim_C5_budget_exhaustion mixedFinalNetEnv).2.1
    (.other "ECONNRESET B") hrej

end UploadStream
